import Mathlib

/-!
Verification of the TraceZero relayer core against its specification.

The Rust sources are shallowly embedded: machine integers become `Nat`
(with explicit `% 2 ^ 64` where u64 overflow semantics matter), byte
strings become `List Nat`, fallible calls return `Except`, and the
stateful services are explicit state-passing functions.  External
library calls (SHA-256, the Poseidon hash) are parameters of the
embedding, since their internals are outside the repository.
-/

namespace TraceZero

/-- Big-endian byte interpretation, `BigUint::from_bytes_be`. -/
def beBytesToNat (l : List Nat) : Nat :=
  l.foldl (fun acc b => acc * 256 + b) 0

/-- Little-endian digits of a positive number, least significant first. -/
def natToLeBytes (n : Nat) : List Nat :=
  if n = 0 then [] else n % 256 :: natToLeBytes (n / 256)
termination_by n
decreasing_by
  exact Nat.div_lt_self (Nat.pos_of_ne_zero (by assumption)) (by norm_num)

/-- Big-endian bytes of a number, `BigUint::to_bytes_be` (zero encodes as `[0]`). -/
def natToBeBytes (n : Nat) : List Nat :=
  if n = 0 then [0] else (natToLeBytes n).reverse

theorem beBytesToNat_append (l : List Nat) (x : Nat) :
    beBytesToNat (l ++ [x]) = beBytesToNat l * 256 + x := by
  simp [beBytesToNat, List.foldl_append]

theorem beBytesToNat_reverse_natToLeBytes (n : Nat) :
    beBytesToNat (natToLeBytes n).reverse = n := by
  induction n using Nat.strong_induction_on with
  | _ n ih =>
    rw [natToLeBytes]
    split
    · simp [beBytesToNat]
      omega
    · rename_i hn
      rw [List.reverse_cons, beBytesToNat_append,
        ih (n / 256) (Nat.div_lt_self (Nat.pos_of_ne_zero hn) (by norm_num))]
      omega

theorem beBytesToNat_natToBeBytes (n : Nat) :
    beBytesToNat (natToBeBytes n) = n := by
  rw [natToBeBytes]
  split
  · simp [beBytesToNat]
    omega
  · exact beBytesToNat_reverse_natToLeBytes n

/-- Binary modular exponentiation, the model of `BigUint::modpow`. -/
def modpow (a b n : Nat) : Nat :=
  if b = 0 then 1 % n
  else if b % 2 = 1 then a * modpow (a * a % n) (b / 2) n % n
  else modpow (a * a % n) (b / 2) n
termination_by b
decreasing_by
  all_goals exact Nat.div_lt_self (Nat.pos_of_ne_zero (by assumption)) (by norm_num)

theorem modpow_eq (a b n : Nat) : modpow a b n = a ^ b % n := by
  induction b using Nat.strong_induction_on generalizing a with
  | _ b ih =>
    rw [modpow]
    split
    · simp_all
    · rename_i hb
      have hlt : b / 2 < b := Nat.div_lt_self (Nat.pos_of_ne_zero hb) (by norm_num)
      have hsq : (a * a % n) ^ (b / 2) % n = (a ^ 2) ^ (b / 2) % n := by
        rw [Nat.pow_mod, Nat.mod_mod_of_dvd _ (dvd_refl n), ← Nat.pow_mod, sq]
      split
      · rename_i hodd
        have hb2 : 2 * (b / 2) + 1 = b := by omega
        calc a * modpow (a * a % n) (b / 2) n % n
            = a * ((a ^ 2) ^ (b / 2) % n) % n := by rw [ih (b / 2) hlt, hsq]
          _ = a * (a ^ 2) ^ (b / 2) % n := by
              rw [Nat.mul_mod, Nat.mod_mod, ← Nat.mul_mod]
          _ = a ^ b % n := by rw [← pow_mul, ← pow_succ', hb2]
      · rename_i heven
        have hb2 : 2 * (b / 2) = b := by omega
        rw [ih (b / 2) hlt, hsq, ← pow_mul, hb2]

/-! ## Blind signer (crates/relayer/src/blind_signer.rs, crates/privacy-proxy-sdk/src/blind_sig.rs) -/

/-- The error type of the relayer, from crates/relayer/src/error.rs. -/
inductive RelayerError where
  | invalidBlindedToken : RelayerError
  | invalidSignature : RelayerError
  | tokenAlreadyRedeemed : RelayerError
  | invalidBucket : Nat → RelayerError
  | invalidRequest : String → RelayerError
  | merkleTree : String → RelayerError
  | transactionFailed : String → RelayerError
  | crypto : String → RelayerError
  | internal : String → RelayerError
  | solanaClient : String → RelayerError
deriving Repr, DecidableEq

/-- An RSA key as the embedding sees it: modulus, public and private exponents. -/
structure RsaKey where
  n : Nat
  e : Nat
  d : Nat
deriving Repr, DecidableEq

/-- `BlindSigner::sign_blinded`: interpret the blinded message as a big-endian;
fail when it is not below the modulus, otherwise raise it to the private
exponent modulo `n` and re-encode big-endian. -/
def sign_blinded (n d : Nat) (blindedMessage : List Nat) : Except RelayerError (List Nat) :=
  if beBytesToNat blindedMessage ≥ n then Except.error RelayerError.invalidBlindedToken
  else Except.ok (natToBeBytes (modpow (beBytesToNat blindedMessage) d n))

/-- `BlindSigner::verify_signature`: hash the message with SHA-256, compare with
the signature raised to the public exponent modulo `n`.  The hash function is a
parameter of the embedding. -/
def verify_signature (sha : List Nat → List Nat) (k : RsaKey)
    (message signature : List Nat) : Bool :=
  modpow (beBytesToNat signature) k.e k.n == beBytesToNat (sha message)

/-- The deterministic part of `blind_message` from the SDK, with the randomly
drawn blinding factor `r` and its precomputed inverse as parameters: the blinded
token is `SHA256(message) * r ^ e mod n`, encoded big-endian. -/
def blind_message (sha : List Nat → List Nat) (n e : Nat) (message : List Nat)
    (r rInv : Nat) : List Nat × (Nat × Nat) :=
  (natToBeBytes (beBytesToNat (sha message) * modpow r e n % n), (r, rInv))

/-- `unblind_signature` from the SDK: multiply by the inverse blinding factor
modulo `n`. -/
def unblind_signature (blindedSig : List Nat) (rInv n : Nat) : List Nat :=
  natToBeBytes (beBytesToNat blindedSig * rInv % n)

/-- Fermat step: when `k ≡ 1 (mod p - 1)` and `k ≥ 1`, exponentiation by `k`
fixes every residue modulo the prime `p`. -/
theorem pow_modEq_self_of_prime (p k m : Nat) (hp : p.Prime) (hk : 1 ≤ k)
    (hmod : Nat.ModEq (p - 1) k 1) : Nat.ModEq p (m ^ k) m := by
  haveI : Fact p.Prime := ⟨hp⟩
  have hcast : ((m : ZMod p)) ^ k = (m : ZMod p) := by
    by_cases hm : (m : ZMod p) = 0
    · rw [hm, zero_pow (by omega)]
    · obtain ⟨t, ht⟩ : (p - 1) ∣ (k - 1) := (Nat.modEq_iff_dvd' hk).mp hmod.symm
      have hk1 : k = 1 + (p - 1) * t := by omega
      rw [hk1, pow_add, pow_mul, ZMod.pow_card_sub_one_eq_one hm, one_pow, pow_one, mul_one]
  have := (ZMod.natCast_eq_natCast_iff (m ^ k) m p).mp (by push_cast; exact hcast)
  exact this

/-- RSA correctness: exponentiation by `e * d` with `e * d ≡ 1 (mod lcm (p-1) (q-1))`
fixes every residue modulo `p * q` for distinct primes `p` and `q`. -/
theorem rsa_pow_modEq_self (p q k m : Nat) (hp : p.Prime) (hq : q.Prime)
    (hpq : p ≠ q) (hk : 1 ≤ k)
    (hmod : Nat.ModEq (Nat.lcm (p - 1) (q - 1)) k 1) : Nat.ModEq (p * q) (m ^ k) m := by
  have hco : Nat.Coprime p q := (Nat.coprime_primes hp hq).mpr hpq
  refine (Nat.modEq_and_modEq_iff_modEq_mul hco).mp ⟨?_, ?_⟩
  · exact pow_modEq_self_of_prime p k m hp hk (hmod.of_dvd (Nat.dvd_lcm_left _ _))
  · exact pow_modEq_self_of_prime q k m hq hk (hmod.of_dvd (Nat.dvd_lcm_right _ _))

/-- C2.  `sign_blinded` interprets its input as a big-endian unsigned integer
and either rejects it (when it is at least the modulus) with
`InvalidBlindedToken`, or returns the big-endian bytes of its `d`-th power
modulo `N`. -/
theorem sign_blinded_spec (n d : Nat) (blinded : List Nat) :
    sign_blinded n d blinded =
      (if beBytesToNat blinded ≥ n then Except.error RelayerError.invalidBlindedToken
       else Except.ok (natToBeBytes (beBytesToNat blinded ^ d % n))) := by
  rw [sign_blinded, modpow_eq]

/-- C3.  Blinding, signing and unblinding compose to a valid RSA signature:
for a well-formed RSA key over distinct primes `p`, `q` and any blinding factor
with `r * rInv ≡ 1 (mod N)`, the unblinded signature `s` satisfies
`s ^ e ≡ SHA256(message) (mod N)`, so `verify_signature` accepts it. -/
theorem blind_sign_roundtrip (sha : List Nat → List Nat) (message : List Nat)
    (p q e d r rInv : Nat) (hp : p.Prime) (hq : q.Prime) (hpq : p ≠ q)
    (he : 1 ≤ e) (hd : 1 ≤ d)
    (hed : Nat.ModEq (Nat.lcm (p - 1) (q - 1)) (e * d) 1)
    (hh : beBytesToNat (sha message) < p * q)
    (hr : r * rInv % (p * q) = 1) :
    ∃ sb, sign_blinded (p * q) d (blind_message sha (p * q) e message r rInv).1 =
        Except.ok sb ∧
      verify_signature sha ⟨p * q, e, d⟩ message
        (unblind_signature sb rInv (p * q)) = true := by
  have hn : 0 < p * q := Nat.mul_pos hp.pos hq.pos
  set h := beBytesToNat (sha message) with hhdef
  set blinded := h * modpow r e (p * q) % (p * q) with hbdef
  have hblt : blinded < p * q := Nat.mod_lt _ hn
  have hb1 : beBytesToNat (blind_message sha (p * q) e message r rInv).1 = blinded := by
    rw [blind_message, beBytesToNat_natToBeBytes]
  refine ⟨natToBeBytes (modpow blinded d (p * q)), ?_, ?_⟩
  · rw [sign_blinded, hb1, if_neg (by omega)]
  · rw [verify_signature, unblind_signature, beBytesToNat_natToBeBytes,
      beBytesToNat_natToBeBytes]
    have goal : (modpow blinded d (p * q) * rInv % (p * q)) ^ e % (p * q) = h := by
      rw [modpow_eq]
      have hs : Nat.ModEq (p * q) (blinded ^ d % (p * q) * rInv) (h ^ d) := by
        have h1 : Nat.ModEq (p * q) blinded (h * r ^ e) := by
          rw [hbdef, modpow_eq]
          calc h * (r ^ e % (p * q)) % (p * q)
              ≡ h * (r ^ e % (p * q)) [MOD p * q] := Nat.mod_modEq _ _
            _ ≡ h * r ^ e [MOD p * q] :=
                Nat.ModEq.mul_left h (Nat.mod_modEq _ _)
        have h2 : Nat.ModEq (p * q) (blinded ^ d % (p * q) * rInv)
            ((h * r ^ e) ^ d * rInv) :=
          Nat.ModEq.mul_right rInv ((Nat.mod_modEq _ _).trans (h1.pow d))
        have h3 : (h * r ^ e) ^ d * rInv = h ^ d * (r ^ (e * d) * rInv) := by
          rw [mul_pow, ← pow_mul]
          ring
        have h4 : Nat.ModEq (p * q) (r ^ (e * d) * rInv) 1 := by
          have hred : Nat.ModEq (p * q) (r ^ (e * d)) r :=
            rsa_pow_modEq_self p q (e * d) r hp hq hpq
              (Nat.one_le_iff_ne_zero.mpr (by positivity)) hed
          calc r ^ (e * d) * rInv ≡ r * rInv [MOD p * q] :=
                Nat.ModEq.mul_right rInv hred
            _ ≡ r * rInv % (p * q) [MOD p * q] := (Nat.mod_modEq _ _).symm
            _ = 1 := hr
        calc blinded ^ d % (p * q) * rInv
            ≡ (h * r ^ e) ^ d * rInv [MOD p * q] := h2
          _ = h ^ d * (r ^ (e * d) * rInv) := h3
          _ ≡ h ^ d * 1 [MOD p * q] := Nat.ModEq.mul_left _ h4
          _ = h ^ d := by ring
      have hfin : Nat.ModEq (p * q) ((blinded ^ d % (p * q) * rInv % (p * q)) ^ e) h := by
        calc (blinded ^ d % (p * q) * rInv % (p * q)) ^ e
            ≡ (blinded ^ d % (p * q) * rInv) ^ e [MOD p * q] :=
              (Nat.mod_modEq _ _).pow e
          _ ≡ (h ^ d) ^ e [MOD p * q] := hs.pow e
          _ = h ^ (e * d) := by rw [← pow_mul, mul_comm]
          _ ≡ h [MOD p * q] := rsa_pow_modEq_self p q (e * d) h hp hq hpq
              (Nat.one_le_iff_ne_zero.mpr (by positivity)) hed
      have := hfin
      unfold Nat.ModEq at this
      rw [this, Nat.mod_eq_of_lt hh]
    rw [modpow_eq, goal]
    exact beq_self_eq_true h

/-- Witness for C3 at the concrete key `p = 3`, `q = 11`, `e = 3`, `d = 7` with
blinding factor `r = 2`, `rInv = 17`. -/
theorem blind_sign_roundtrip_witness :
    ∃ sb, sign_blinded (3 * 11) 7
        (blind_message (fun _ => [5]) (3 * 11) 3 [] 2 17).1 = Except.ok sb ∧
      verify_signature (fun _ => [5]) ⟨3 * 11, 3, 7⟩ []
        (unblind_signature sb 17 (3 * 11)) = true :=
  blind_sign_roundtrip (fun _ => [5]) [] 3 11 3 7 2 17
    (by norm_num) (by norm_num) (by norm_num) (by norm_num) (by norm_num)
    (by decide) (by decide) (by decide)

/-! ## Configuration (crates/relayer/src/config.rs) -/

/-- `2 ^ 64`, the wrap-around modulus of Rust u64 arithmetic. -/
def U64MOD : Nat := 2 ^ 64

/-- `BUCKET_AMOUNTS`: the seven permitted deposit denominations in lamports. -/
def BUCKET_AMOUNTS : List Nat :=
  [100000000, 500000000, 1000000000, 5000000000, 10000000000,
   50000000000, 100000000000]

/-- `get_bucket_id`: position of the amount in `BUCKET_AMOUNTS`, if any. -/
def get_bucket_id (amount : Nat) : Option Nat :=
  BUCKET_AMOUNTS.findIdx? (fun a => a == amount)

/-- `calculate_total_with_fee`: the fee is computed in u128 (exact here, since
the inputs fit u64 and u16), truncated to u64, and added with u64 wrap-around
semantics. -/
def calculate_total_with_fee (amount feeBps : Nat) : Nat :=
  (amount + amount * feeBps / 10000 % U64MOD) % U64MOD

/-- u64 wrapping subtraction (`a - b` in release-mode Rust). -/
def subU64 (a b : Nat) : Nat :=
  (a + (U64MOD - b % U64MOD)) % U64MOD

/-- Little-endian u64 from the first 8 bytes of a byte list
(`u64::from_le_bytes`). -/
def u64FromLe (l : List Nat) : Nat :=
  (l.take 8).foldr (fun b acc => acc * 256 + b) 0

/-! ## String and hex helpers (models of the `str` and `hex` library calls) -/

/-- `l` starts with `pat`. -/
def listStartsWith : List Char → List Char → Bool
  | [], _ => true
  | _ :: _, [] => false
  | a :: as, b :: bs => a == b && listStartsWith as bs

/-- Index of the first occurrence of `pat`, searching from offset `i`. -/
def findSubAux (pat : List Char) : List Char → Nat → Option Nat
  | [], i => if pat.isEmpty then some i else none
  | c :: rest, i =>
    if listStartsWith pat (c :: rest) then some i else findSubAux pat rest (i + 1)

/-- `str::find` for a literal pattern (ASCII, so byte and char offsets agree). -/
def findSubstr (s pat : String) : Option Nat :=
  findSubAux pat.toList s.toList 0

/-- `str::contains` for a literal pattern. -/
def containsSubstr (s pat : String) : Bool :=
  (findSubstr s pat).isSome

/-- Value of one hexadecimal digit. -/
def hexVal (c : Char) : Option Nat :=
  if 48 ≤ c.toNat ∧ c.toNat ≤ 57 then some (c.toNat - 48)
  else if 97 ≤ c.toNat ∧ c.toNat ≤ 102 then some (c.toNat - 87)
  else if 65 ≤ c.toNat ∧ c.toNat ≤ 70 then some (c.toNat - 55)
  else none

/-- `hex::decode` on a char list: pairs of hex digits to bytes. -/
def hexDecodeList : List Char → Option (List Nat)
  | [] => some []
  | [_] => none
  | a :: b :: rest =>
    match hexVal a, hexVal b, hexDecodeList rest with
    | some x, some y, some r => some ((x * 16 + y) :: r)
    | _, _, _ => none

/-- One lowercase hex digit. -/
def hexDigit (n : Nat) : Char :=
  if n < 10 then Char.ofNat (48 + n) else Char.ofNat (87 + n)

/-- `hex::encode` of a byte list. -/
def hexEncode (l : List Nat) : String :=
  String.mk (l.foldr (fun b acc => hexDigit (b / 16 % 16) :: hexDigit (b % 16) :: acc) [])

/-! ## Token store (crates/relayer/src/deposit.rs, `TokenStore`) -/

/-- Lexicographic byte-list comparison (the `Ord` used by `sorted.sort()`). -/
def lexLe : List Nat → List Nat → Bool
  | [], _ => true
  | _ :: _, [] => false
  | a :: as, b :: bs => if a < b then true else if b < a then false else lexLe as bs

/-- Insertion into a lexicographically sorted list of hashes. -/
def insertSorted (x : List Nat) : List (List Nat) → List (List Nat)
  | [] => [x]
  | y :: ys => if lexLe x y then x :: y :: ys else y :: insertSorted x ys

/-- Sort a list of hashes lexicographically. -/
def sortHashes (l : List (List Nat)) : List (List Nat) :=
  l.foldr insertSorted []

/-- `TokenStore::compute_checksum`: SHA-256 over the concatenation of the
sorted 32-byte hashes.  The hash function is a parameter of the embedding. -/
def compute_checksum (sha : List Nat → List Nat) (tokens : List (List Nat)) : List Nat :=
  sha ((sortHashes tokens).foldl (fun acc t => acc ++ t) [])

/-- The in-memory token store: the redeemed-token cache and its checksum. -/
structure TokenStore where
  cache : List (List Nat)
  checksum : List Nat
deriving Repr, DecidableEq

/-- `HashSet::insert`: add the hash unless it is already present. -/
def setInsert (x : List Nat) (s : List (List Nat)) : List (List Nat) :=
  if s.contains x then s else s ++ [x]

/-- Helper for `chunksExact32`: collect bytes into the growing chunk `acc`,
emitting it whenever it reaches 32 bytes; a trailing incomplete chunk is
dropped. -/
def chunksAux : List Nat → List Nat → List (List Nat)
  | [], _ => []
  | x :: rest, acc =>
    if (acc ++ [x]).length = 32 then (acc ++ [x]) :: chunksAux rest []
    else chunksAux rest (acc ++ [x])

/-- `data.chunks_exact(32)`: the consecutive full 32-byte chunks of a byte list. -/
def chunksExact32 (l : List Nat) : List (List Nat) :=
  chunksAux l []

/-- `TokenStore::load`.  The filesystem is modelled by the optional contents of
the data file and of the checksum sidecar file (`none` covers a missing or
unreadable file).  When the data file is absent the store starts empty; when
the sidecar holds 32 bytes that disagree with the computed checksum the store
is reset to empty; otherwise the chunks of the data file are loaded, with or
without verification. -/
def tokenStoreLoad (sha : List Nat → List Nat)
    (dataFile : Option (List Nat)) (checksumFile : Option (List Nat)) : TokenStore :=
  match dataFile with
  | none => { cache := [], checksum := compute_checksum sha [] }
  | some data =>
    let set := (chunksExact32 data).foldl (fun s c => setInsert c s) []
    match checksumFile with
    | some stored =>
      if stored.length = 32 then
        if compute_checksum sha set = stored then
          { cache := set, checksum := compute_checksum sha set }
        else
          { cache := [], checksum := List.replicate 32 0 }
      else { cache := set, checksum := compute_checksum sha set }
    | none => { cache := set, checksum := compute_checksum sha set }

/-- `TokenStore::insert` (the disk write always succeeds in the model): insert
into the cache and refresh the checksum; a no-op when already present. -/
def tokenStoreInsert (sha : List Nat → List Nat) (ts : TokenStore)
    (h : List Nat) : TokenStore :=
  if ts.cache.contains h then ts
  else
    { cache := ts.cache ++ [h], checksum := compute_checksum sha (ts.cache ++ [h]) }

/-! ## Merkle commitment service (crates/relayer/src/merkle_service.rs) -/

/-- Modelled from the spec: the SDK Merkle tree
(`privacy_proxy_sdk::merkle::MerkleTree`, whose source file is not in the
snapshot).  A depth-`d` append-only tree: leaves are inserted left-to-right,
`insert` returns the zero-based leaf index and fails when the tree already
holds `2 ^ d` leaves, `len` is the number of leaves. -/
structure MerkleTree where
  depth : Nat
  leaves : List (List Nat)
deriving Repr, DecidableEq

/-- `TREE_DEPTH = 20` per the spec (depth-20 commitment trees). -/
def TREE_DEPTH : Nat := 20

/-- Modelled from the spec: `MerkleTree::new`, the empty tree. -/
def MerkleTree.new (depth : Nat) : MerkleTree :=
  { depth := depth, leaves := [] }

/-- Modelled from the spec: `MerkleTree::insert` appends the leaf and returns
its index, failing when the tree is full. -/
def MerkleTree.insertLeaf (t : MerkleTree) (c : List Nat) :
    Except String (MerkleTree × Nat) :=
  if t.leaves.length < 2 ^ t.depth then
    Except.ok ({ t with leaves := t.leaves ++ [c] }, t.leaves.length)
  else Except.error "tree is full"

/-- Modelled from the spec: one level of parent nodes; a missing right sibling
is the empty-subtree node `z` of the current level. -/
def merkleLevel (hash2 : List Nat → List Nat → List Nat) (z : List Nat) :
    List (List Nat) → List (List Nat)
  | [] => []
  | [a] => [hash2 a z]
  | a :: b :: rest => hash2 a b :: merkleLevel hash2 z rest

/-- Modelled from the spec: the root after `d` levels over the leaf layer,
with empty-subtree defaults at every level. -/
def merkleRootAux (hash2 : List Nat → List Nat → List Nat) :
    Nat → List Nat → List (List Nat) → List Nat
  | 0, z, l => l.headD z
  | d + 1, z, l => merkleRootAux hash2 d (hash2 z z) (merkleLevel hash2 z l)

/-- Modelled from the spec: `MerkleTree::root`, parameterised by the Poseidon
2-ary compression function and the empty-leaf value. -/
def MerkleTree.rootWith (hash2 : List Nat → List Nat → List Nat)
    (zeroLeaf : List Nat) (t : MerkleTree) : List Nat :=
  merkleRootAux hash2 t.depth zeroLeaf t.leaves

/-- The in-memory state of `MerkleService`: the per-bucket tree map and the
per-bucket commitment-list map. -/
structure MerkleState where
  trees : Nat → Option MerkleTree
  commitments : Nat → Option (List (List Nat))

/-- `MerkleService::size`: `none` models the `Tree not initialized` error. -/
def MerkleState.size (s : MerkleState) (b : Nat) : Option Nat :=
  (s.trees b).map (fun t => t.leaves.length)

/-- `MerkleService::insert`: insert into the bucket tree and push onto the
bucket commitment list (created empty when absent); state persistence is
modelled as always succeeding. -/
def MerkleState.insert (s : MerkleState) (b : Nat) (c : List Nat) :
    Except RelayerError (Nat × MerkleState) :=
  match s.trees b with
  | none => Except.error (RelayerError.merkleTree "Tree not initialized")
  | some t =>
    match t.insertLeaf c with
    | Except.error e => Except.error (RelayerError.merkleTree e)
    | Except.ok (t2, idx) =>
      Except.ok (idx,
        { trees := fun k => if k = b then some t2 else s.trees k,
          commitments := fun k =>
            if k = b then some (((s.commitments b).getD []) ++ [c])
            else s.commitments k })

/-- `MerkleService::root`. -/
def MerkleState.root (hash2 : List Nat → List Nat → List Nat) (zeroLeaf : List Nat)
    (s : MerkleState) (b : Nat) : Except RelayerError (List Nat) :=
  match s.trees b with
  | none => Except.error (RelayerError.merkleTree "Tree not initialized")
  | some t => Except.ok (t.rootWith hash2 zeroLeaf)

/-- Rebuilding a depth-20 tree by inserting the given commitments
left-to-right into an empty tree, as the loop in `sync_from_chain` does. -/
def buildTree (l : List (List Nat)) : Except String MerkleTree :=
  l.foldlM (fun t c => (t.insertLeaf c).map Prod.fst) (MerkleTree.new TREE_DEPTH)

/-- `MerkleService::sync_from_chain`: when the given list has exactly the
current size the call is a no-op; otherwise the bucket tree is rebuilt from the
list and both maps are overwritten (persistence modelled as succeeding). -/
def MerkleState.syncFromChain (s : MerkleState) (b : Nat)
    (onChainCommitments : List (List Nat)) : Except RelayerError MerkleState :=
  if onChainCommitments.length = (s.size b).getD 0 then Except.ok s
  else
    match buildTree onChainCommitments with
    | Except.error e => Except.error (RelayerError.merkleTree e)
    | Except.ok t =>
      Except.ok
        { trees := fun k => if k = b then some t else s.trees k,
          commitments := fun k =>
            if k = b then some onChainCommitments else s.commitments k }

/-! ## Relayer state (composition of the services held by `RelayerState`) -/

/-- A pending-withdrawal record (`PendingWithdrawalRecord`).  PDAs are
modelled by their seed data: the pending PDA by the pool seed and the
`total_deposits` value, the pool PDA by its bucket seed. -/
structure PendingRecord where
  pda : Nat × Nat
  poolPda : Nat
  bucketId : Nat
  nullifierHash : List Nat
  recipient : List Nat
  executeAfter : Int
  amount : Nat
  fee : Nat
  executed : Bool
deriving Repr, DecidableEq

/-- The mutable state of the composed relayer: the deposit service's token
store, the commitment service's maps, the withdrawal service's per-bucket
historical-root cache and pending-withdrawal list. -/
structure RelState where
  tokenStore : TokenStore
  merkle : MerkleState
  historicalRoots : List (List (List Nat))
  pending : List PendingRecord

/-! ## Deposit pipeline (crates/relayer/src/deposit.rs) -/

/-- `hash_token_id` (crates/relayer/src/encryption.rs):
`SHA256("token_hash:" ++ token_id)`. -/
def hash_token_id (sha : List Nat → List Nat) (tokenId : List Nat) : List Nat :=
  sha (("token_hash:".toList.map Char.toNat) ++ tokenId)

/-- A `DepositRequest` from the SDK. -/
structure DepositRequest where
  tokenId : List Nat
  signature : List Nat
  amount : Nat
  commitment : List Nat
  encryptedNote : Option (List Nat)

/-- A `DepositResponse` from the SDK. -/
structure DepositResponse where
  success : Bool
  txSignature : Option String
  leafIndex : Option Nat
  merkleRoot : Option String
  error : Option String
deriving Repr, DecidableEq

/-- One entry of `get_signatures_for_address`: the error flag of the
transaction and, when the follow-up `get_transaction` succeeds and carries
meta log messages, those log lines (`none` models a failed fetch or absent
logs). -/
structure SigInfo where
  err : Bool
  logs : Option (List String)

/-- The chain environment a single `handle_deposit` call observes. -/
structure DepositEnv where
  poolData : Except String (List Nat)
  signatures : Except String (List SigInfo)
  blockhash : Except String Unit
  submitResult : Except String String

/-- `get_on_chain_next_index`: fetch the pool account and read the
little-endian u64 at offset 49 (zero when the account data is shorter than 57
bytes). -/
def getOnChainNextIndex (env : DepositEnv) : Except RelayerError Nat :=
  match env.poolData with
  | Except.error e =>
    Except.error (RelayerError.transactionFailed ("Failed to fetch pool: " ++ e))
  | Except.ok data =>
    Except.ok (if 57 ≤ data.length then u64FromLe ((data.drop 49).take 8) else 0)

/-- The commitment, if any, a single program-log line contributes during the
chain-sync scan: the line must contain the deposit marker, and the 64 hex
characters after the first `commitment=` must decode to 32 bytes. -/
def logCommitment (log : String) : Option (List Nat) :=
  if containsSubstr log "Program log: Deposit: commitment=" then
    match findSubstr log "commitment=" with
    | some i =>
      let hexStr := log.toList.drop (i + 11)
      if 64 ≤ hexStr.length then
        match hexDecodeList (hexStr.take 64) with
        | some bytes => if bytes.length = 32 then some bytes else none
        | none => none
      else none
    | none => none
  else none

/-- The commitments contributed by one transaction's log lines, in order. -/
def logsCommitments (logs : List String) : List (List Nat) :=
  logs.foldl (fun acc l =>
    match logCommitment l with
    | some c => acc ++ [c]
    | none => acc) []

/-- The commitments collected by the chain-sync scan: the oldest 20 of the
newest-first signature list (`iter().rev().take(20)`), skipping failed
transactions and failed fetches. -/
def extractCommitments (sigs : List SigInfo) : List (List Nat) :=
  (sigs.reverse.take 20).foldl (fun acc s =>
    if s.err then acc
    else
      match s.logs with
      | some logs => acc ++ logsCommitments logs
      | none => acc) []

/-- `DepositService::sync_local_tree`.  Returns the outcome together with the
commitment-service state reached, which survives even when a later step
fails. -/
def syncLocalTree (env : DepositEnv) (b onChainSize : Nat) (m0 : MerkleState) :
    Except RelayerError Unit × MerkleState :=
  let resetStep : Except RelayerError Unit × MerkleState :=
    if onChainSize < (m0.size b).getD 0 then
      match m0.syncFromChain b [] with
      | Except.error e => (Except.error e, m0)
      | Except.ok m1 => (Except.ok (), m1)
    else (Except.ok (), m0)
  match resetStep with
  | (Except.error e, m1) => (Except.error e, m1)
  | (Except.ok _, m1) =>
    if (m1.size b).getD 0 < onChainSize then
      match env.signatures with
      | Except.error e =>
        (Except.error (RelayerError.transactionFailed
          ("Failed to fetch transaction history: " ++ e)), m1)
      | Except.ok sigs =>
        if 50 < sigs.length then
          match m1.syncFromChain b [] with
          | Except.error e => (Except.error e, m1)
          | Except.ok m2 => (Except.ok (), m2)
        else
          match extractCommitments sigs with
          | [] =>
            match m1.syncFromChain b [] with
            | Except.error e => (Except.error e, m1)
            | Except.ok m2 => (Except.ok (), m2)
          | c :: cs =>
            match m1.syncFromChain b (c :: cs) with
            | Except.error e => (Except.error e, m1)
            | Except.ok m2 => (Except.ok (), m2)
    else (Except.ok (), m1)

/-- `DepositService::handle_deposit`: credit verification, token-used check,
bucket lookup, reconcile, local insert, on-chain submission, and only then the
token-store insert. -/
def handleDeposit (sha : List Nat → List Nat)
    (hash2 : List Nat → List Nat → List Nat) (zeroLeaf : List Nat)
    (key : RsaKey) (env : DepositEnv) (req : DepositRequest) (st : RelState) :
    Except RelayerError DepositResponse × RelState :=
  if verify_signature sha key req.tokenId req.signature = false then
    (Except.error RelayerError.invalidSignature, st)
  else
    if st.tokenStore.cache.contains (hash_token_id sha req.tokenId) then
      (Except.error RelayerError.tokenAlreadyRedeemed, st)
    else
      match get_bucket_id req.amount with
      | none => (Except.error (RelayerError.invalidBucket req.amount), st)
      | some b =>
        match getOnChainNextIndex env with
        | Except.error e => (Except.error e, st)
        | Except.ok onChainNext =>
          match
            (if (st.merkle.size b).getD 0 ≠ onChainNext then
              syncLocalTree env b onChainNext st.merkle
            else (Except.ok (), st.merkle)) with
          | (Except.error e, m1) => (Except.error e, { st with merkle := m1 })
          | (Except.ok _, m1) =>
            match m1.insert b req.commitment with
            | Except.error e => (Except.error e, { st with merkle := m1 })
            | Except.ok (leafIndex, m2) =>
              match m2.root hash2 zeroLeaf b with
              | Except.error e => (Except.error e, { st with merkle := m2 })
              | Except.ok root =>
                match env.blockhash with
                | Except.error e =>
                  (Except.error (RelayerError.solanaClient e), { st with merkle := m2 })
                | Except.ok _ =>
                  match env.submitResult with
                  | Except.error e =>
                    (Except.error (RelayerError.transactionFailed e),
                     { st with merkle := m2 })
                  | Except.ok txSig =>
                    (Except.ok
                      { success := true, txSignature := some txSig,
                        leafIndex := some leafIndex,
                        merkleRoot := some (hexEncode root), error := none },
                     { st with
                        merkle := m2
                        tokenStore := tokenStoreInsert sha st.tokenStore
                          (hash_token_id sha req.tokenId) })

/-! ## Withdrawal pipeline (crates/relayer/src/withdrawal.rs and
crates/privacy-proxy-sdk/src/withdrawal.rs) -/

/-- A Groth16 proof as raw byte blocks. -/
structure ZkProof where
  a : List Nat
  b : List Nat
  c : List Nat
deriving Repr, DecidableEq

/-- `WithdrawalPublicInputs` from the SDK. -/
structure WithdrawalPublicInputs where
  root : List Nat
  nullifierHash : List Nat
  recipient : List Nat
  amount : Nat
  relayer : List Nat
  fee : Nat
  bindingHash : List Nat
deriving Repr, DecidableEq

/-- `WithdrawalRequest` from the SDK. -/
structure WithdrawalRequest where
  proof : ZkProof
  publicInputs : WithdrawalPublicInputs
deriving Repr, DecidableEq

/-- `WithdrawalResponse` from the SDK. -/
structure WithdrawalResponse where
  success : Bool
  txSignature : Option String
  error : Option String
deriving Repr, DecidableEq

/-- A 32-byte value is all zero. -/
def allZero (l : List Nat) : Bool :=
  l.all (fun b => b = 0)

/-- `validate_fee` (crates/privacy-proxy-sdk/src/crypto.rs): the fee must be
strictly below the amount. -/
def validate_fee (fee amount : Nat) : Except String Unit :=
  if amount ≤ fee then
    Except.error ("Fee (" ++ toString fee ++ ") must be less than amount ("
      ++ toString amount ++ ")")
  else Except.ok ()

/-- `WithdrawalRequest::validate`: non-zero amount, fee below amount, and none
of nullifier hash, recipient, relayer, binding hash all-zero. -/
def WithdrawalRequest.validate (r : WithdrawalRequest) : Except String Unit :=
  if r.publicInputs.amount = 0 then Except.error "Amount must be non-zero"
  else
    match validate_fee r.publicInputs.fee r.publicInputs.amount with
    | Except.error e => Except.error e
    | Except.ok _ =>
      if allZero r.publicInputs.nullifierHash then
        Except.error "Nullifier hash must be non-zero"
      else if allZero r.publicInputs.recipient then
        Except.error "Recipient must be non-zero"
      else if allZero r.publicInputs.relayer then
        Except.error "Relayer must be non-zero"
      else if allZero r.publicInputs.bindingHash then
        Except.error "Binding hash must be non-zero"
      else Except.ok ()

/-- `WithdrawalService::verify_merkle_root`: accept the current root, accept a
cached historical root, and otherwise log a warning (the boolean) but still
return success; the only failure is an uninitialised tree. -/
def verifyMerkleRoot (hash2 : List Nat → List Nat → List Nat) (zeroLeaf : List Nat)
    (st : RelState) (root : List Nat) (b : Nat) :
    Except RelayerError Unit × Bool :=
  match st.merkle.root hash2 zeroLeaf b with
  | Except.error e => (Except.error e, false)
  | Except.ok current =>
    if root = current then (Except.ok (), false)
    else if (st.historicalRoots.getD b []).contains root then (Except.ok (), false)
    else (Except.ok (), true)

/-- The chain environment one `handle_withdrawal` call observes: the pool
fetch inside `submit_withdrawal_request`, the blockhash and submission
outcome, the pool re-fetch in the tracking step, and the wall clock. -/
structure WithdrawEnv where
  poolData : Except String (List Nat)
  blockhash : Except String Unit
  submitResult : Except String String
  poolData2 : Except String (List Nat)
  now : Int

/-- `total_deposits` parsed from pool account data: little-endian u64 at
offset 57, zero when the data is shorter than 65 bytes. -/
def parseTotalDeposits (data : List Nat) : Nat :=
  if 65 ≤ data.length then u64FromLe ((data.drop 57).take 8) else 0

/-- `WithdrawalService::handle_withdrawal`.  Besides the outcome and the new
state, the result lists the names of the on-chain submissions attempted. -/
def handleWithdrawal (feeBps : Nat) (hash2 : List Nat → List Nat → List Nat)
    (zeroLeaf : List Nat) (env : WithdrawEnv) (req : WithdrawalRequest)
    (delayHours : Nat) (st : RelState) :
    Except RelayerError WithdrawalResponse × RelState × List String :=
  match req.validate with
  | Except.error e => (Except.error (RelayerError.invalidRequest e), st, [])
  | Except.ok _ =>
    match get_bucket_id req.publicInputs.amount with
    | none => (Except.error (RelayerError.invalidBucket req.publicInputs.amount), st, [])
    | some b =>
      match (verifyMerkleRoot hash2 zeroLeaf st req.publicInputs.root b).1 with
      | Except.error e => (Except.error e, st, [])
      | Except.ok _ =>
        match env.poolData with
        | Except.error e =>
          (Except.error (RelayerError.transactionFailed ("Failed to fetch pool: " ++ e)),
           st, [])
        | Except.ok _ =>
          match env.blockhash with
          | Except.error e => (Except.error (RelayerError.solanaClient e), st, [])
          | Except.ok _ =>
            match env.submitResult with
            | Except.error e =>
              (Except.error (RelayerError.transactionFailed e), st,
               ["request_withdrawal"])
            | Except.ok txSig =>
              let totalDeposits2 := parseTotalDeposits (env.poolData2.toOption.getD [])
              let amountLamports := BUCKET_AMOUNTS.getD b 0
              let fee := amountLamports * feeBps % U64MOD / 10000
              let record : PendingRecord :=
                { pda := (b, totalDeposits2), poolPda := b, bucketId := b,
                  nullifierHash := req.publicInputs.nullifierHash,
                  recipient := req.publicInputs.recipient,
                  executeAfter := env.now + (delayHours : Int) * 3600,
                  amount := subU64 amountLamports fee, fee := fee,
                  executed := false }
              (Except.ok
                { success := true, txSignature := some txSig, error := none },
               { st with pending := st.pending ++ [record] },
               ["request_withdrawal"])

/-- The chain environment one `execute_withdrawal_by_record` call observes. -/
structure ExecEnv where
  nullifierExists : Bool
  recipientExists : Bool
  treasuryExists : Bool
  blockhash : Except String Unit
  submitResult : Except String String

/-- `WithdrawalService::execute_withdrawal_by_record`. -/
def executeByRecord (env : ExecEnv) (_r : PendingRecord) :
    Except RelayerError String :=
  if env.nullifierExists then Except.ok "Already executed"
  else
    match env.blockhash with
    | Except.error e => Except.error (RelayerError.solanaClient e)
    | Except.ok _ =>
      match env.submitResult with
      | Except.error e => Except.error (RelayerError.transactionFailed e)
      | Except.ok sig => Except.ok sig

/-- Mark the first record satisfying `p` as executed. -/
def markFirst (p : PendingRecord → Bool) : List PendingRecord → List PendingRecord
  | [] => []
  | r :: rest => if p r then { r with executed := true } :: rest else r :: markFirst p rest

/-- `WithdrawalService::execute_withdrawal` (the HTTP entry point): find the
first un-executed record with the nullifier hash, execute it, and on success
mark the first record with that hash as executed. -/
def executeWithdrawal (env : ExecEnv) (nh : List Nat) (st : RelState) :
    Except RelayerError String × RelState :=
  match st.pending.find? (fun r => r.nullifierHash == nh && !r.executed) with
  | none =>
    (Except.error (RelayerError.invalidRequest
      "No pending withdrawal found for this nullifier hash"), st)
  | some r =>
    match executeByRecord env r with
    | Except.error e => (Except.error e, st)
    | Except.ok tx =>
      (Except.ok tx,
       { st with pending := markFirst (fun r2 => r2.nullifierHash == nh) st.pending })

/-- The environment one background-poll tick observes: the wall clock and a
per-eligible-record execution environment. -/
structure PollEnv where
  now : Int
  recEnv : Nat → ExecEnv

/-- `WithdrawalService::poll_and_execute`: snapshot the due un-executed
records, execute each, and mark the matching record (by PDA) executed on
success. -/
def pollAndExecute (env : PollEnv) (st : RelState) : RelState :=
  let eligible := st.pending.filter (fun r => !r.executed && r.executeAfter ≤ env.now)
  eligible.enum.foldl (fun acc ir =>
    match executeByRecord (env.recEnv ir.1) ir.2 with
    | Except.ok _ =>
      { acc with pending := markFirst (fun r2 => r2.pda == ir.2.pda) acc.pending }
    | Except.error _ => acc) st

/-! ## The /sign endpoint (crates/relayer/src/server.rs) -/

/-- The transaction meta a `/sign` payment check reads. -/
structure TxMeta where
  err : Bool
  preBalances : List Nat
  postBalances : List Nat

/-- A fetched payment transaction: its meta and, when it is JSON-encoded, its
parsed account keys (modelled as abstract key identifiers). -/
structure TxInfo where
  meta : Option TxMeta
  accountKeys : Option (List Nat)

/-- A `SignResponse`. -/
structure SignResponse where
  success : Bool
  signature : Option String
  error : Option String
deriving Repr, DecidableEq

/-- The `sign_blinded` axum handler: bucket check, expected-charge
computation, payment-transaction inspection (`none` models all ten fetch
retries failing), balance-delta verification at the relayer's account index,
then blind signing.  Request-level hex and base58 fields arrive already
parsed. -/
def sign_blinded_endpoint (key : RsaKey) (feeBps relayerPk payerPk : Nat)
    (tx : Option TxInfo) (blindedTokenHex : String) (amount : Nat) :
    Except RelayerError SignResponse :=
  match get_bucket_id amount with
  | none => Except.error (RelayerError.invalidBucket amount)
  | some _ =>
    match tx with
    | none =>
      Except.error (RelayerError.invalidRequest
        "Payment transaction not found. Make sure it is confirmed.")
    | some txInfo =>
      if (match txInfo.meta with | some m => m.err | none => false) then
        Except.error (RelayerError.invalidRequest "Payment transaction failed")
      else
        match txInfo.meta, txInfo.accountKeys with
        | some m, some keys =>
          match keys.findIdx? (fun k => k == relayerPk) with
          | some relayerIdx =>
            match keys.findIdx? (fun k => k == payerPk) with
            | some _ =>
              if calculate_total_with_fee amount feeBps ≤
                  m.postBalances.getD relayerIdx 0 - m.preBalances.getD relayerIdx 0 then
                match hexDecodeList blindedTokenHex.toList with
                | none => Except.error RelayerError.invalidBlindedToken
                | some bytes =>
                  match sign_blinded key.n key.d bytes with
                  | Except.error e => Except.error e
                  | Except.ok sig =>
                    Except.ok
                      { success := true, signature := some (hexEncode sig),
                        error := none }
              else
                Except.error (RelayerError.invalidRequest
                  ("Insufficient payment: received "
                    ++ toString (m.postBalances.getD relayerIdx 0
                      - m.preBalances.getD relayerIdx 0)
                    ++ " lamports, expected "
                    ++ toString (calculate_total_with_fee amount feeBps)))
            | none =>
              Except.error (RelayerError.invalidRequest
                "Could not verify payment. Ensure you sent SOL to the relayer.")
          | none =>
            Except.error (RelayerError.invalidRequest
              "Could not verify payment. Ensure you sent SOL to the relayer.")
        | _, _ =>
          Except.error (RelayerError.invalidRequest
            "Could not verify payment. Ensure you sent SOL to the relayer.")

/-! ## The composed relayer (crates/relayer/src/main.rs, server.rs) -/

/-- The state-mutating operations reachable in the composed relayer: the
deposit, withdrawal and execute endpoints, and the background poll tick.  No
operation invokes `record_historical_root` (it has no caller). -/
inductive RelayerOp where
  | deposit : DepositEnv → DepositRequest → RelayerOp
  | withdraw : WithdrawEnv → WithdrawalRequest → Nat → RelayerOp
  | execute : ExecEnv → List Nat → RelayerOp
  | poll : PollEnv → RelayerOp

/-- One step of the composed relayer. -/
def stepOp (sha : List Nat → List Nat) (hash2 : List Nat → List Nat → List Nat)
    (zeroLeaf : List Nat) (key : RsaKey) (feeBps : Nat) :
    RelayerOp → RelState → RelState
  | RelayerOp.deposit env req, st => (handleDeposit sha hash2 zeroLeaf key env req st).2
  | RelayerOp.withdraw env req d, st =>
    (handleWithdrawal feeBps hash2 zeroLeaf env req d st).2.1
  | RelayerOp.execute env nh, st => (executeWithdrawal env nh st).2
  | RelayerOp.poll env, st => pollAndExecute env st

/-- The boot state of the composed relayer: the loaded token store and
commitment service, empty per-bucket historical-root maps
(`WithdrawalService::new`), and no pending withdrawals. -/
def initRelState (ts : TokenStore) (m : MerkleState) : RelState :=
  { tokenStore := ts, merkle := m,
    historicalRoots := List.replicate BUCKET_AMOUNTS.length [], pending := [] }

/-! ## Claim C4: token-store loading -/

/-- C4 counterexample.  With the data file present (one 32-byte hash) and the
checksum sidecar missing, `TokenStore::load` keeps the loaded set instead of
starting empty, contradicting the claim that a missing checksum file yields an
empty set. -/
theorem token_store_load_counterexample :
    (tokenStoreLoad (fun _ => List.replicate 32 0)
        (some (List.replicate 32 1)) none).cache ≠ [] := by
  decide

/-- C4 amended.  `TokenStore::load` starts empty when the data file is missing,
and when the sidecar holds a 32-byte checksum that differs from the computed
one; a non-empty set arises only from an existing data file whose chunks are
kept either unverified (sidecar missing or not 32 bytes) or verified. -/
theorem token_store_load_amended (sha : List Nat → List Nat)
    (dataFile checksumFile : Option (List Nat)) :
    (dataFile = none → (tokenStoreLoad sha dataFile checksumFile).cache = []) ∧
    (∀ data stored, dataFile = some data → checksumFile = some stored →
      stored.length = 32 →
      stored ≠ compute_checksum sha
        ((chunksExact32 data).foldl (fun s c => setInsert c s) []) →
      (tokenStoreLoad sha dataFile checksumFile).cache = []) ∧
    ((tokenStoreLoad sha dataFile checksumFile).cache ≠ [] →
      ∃ data, dataFile = some data ∧
        (tokenStoreLoad sha dataFile checksumFile).cache =
          (chunksExact32 data).foldl (fun s c => setInsert c s) [] ∧
        (checksumFile = none ∨
          ∃ stored, checksumFile = some stored ∧
            (stored.length ≠ 32 ∨
              stored = compute_checksum sha
                ((chunksExact32 data).foldl (fun s c => setInsert c s) [])))) := by
  refine ⟨?_, ?_, ?_⟩
  · intro h
    subst h
    rfl
  · intro data stored hdata hcs hlen hne
    subst hdata
    subst hcs
    simp only [tokenStoreLoad]
    rw [if_pos hlen, if_neg (fun h => hne h.symm)]
  · intro hne
    cases hdf : dataFile with
    | none =>
      rw [hdf] at hne
      exact absurd rfl hne
    | some data =>
      refine ⟨data, rfl, ?_⟩
      rw [hdf] at hne
      cases hcf : checksumFile with
      | none => exact ⟨rfl, Or.inl rfl⟩
      | some stored =>
        rw [hcf] at hne
        by_cases hlen : stored.length = 32
        · by_cases heq : compute_checksum sha
              ((chunksExact32 data).foldl (fun s c => setInsert c s) []) = stored
          · refine ⟨?_, Or.inr ⟨stored, rfl, Or.inr heq.symm⟩⟩
            simp only [tokenStoreLoad]
            rw [if_pos hlen, if_pos heq]
          · exfalso
            apply hne
            simp only [tokenStoreLoad]
            rw [if_pos hlen, if_neg heq]
        · refine ⟨?_, Or.inr ⟨stored, rfl, Or.inl hlen⟩⟩
          simp only [tokenStoreLoad]
          rw [if_neg hlen]

/-- Witness for the amended C4: a present data file with a mismatching 32-byte
checksum loads as empty. -/
theorem token_store_load_amended_witness :
    (tokenStoreLoad (fun _ => List.replicate 32 0)
        (some (List.replicate 32 1)) (some (List.replicate 32 7))).cache = [] :=
  (token_store_load_amended (fun _ => List.replicate 32 0)
      (some (List.replicate 32 1)) (some (List.replicate 32 7))).2.1
    (List.replicate 32 1) (List.replicate 32 7) rfl rfl (by decide) (by decide)

/-! ## Claim C5: the >50-transaction chain-sync heuristic -/

/-- A deposit environment with 51 pool transactions. -/
def c5Env : DepositEnv :=
  { poolData := Except.ok [],
    signatures := Except.ok (List.replicate 51 { err := false, logs := none }),
    blockhash := Except.ok (), submitResult := Except.ok "sig" }

/-- A commitment-service state with two commitments in bucket 0. -/
def c5St : MerkleState :=
  { trees := fun k => if k = 0 then some { depth := 20, leaves := [[1], [2]] } else none,
    commitments := fun k => if k = 0 then some [[1], [2]] else none }

/-- C5 counterexample.  With a local tree of size 2, an on-chain size of 5 and
51 pool transactions, `sync_local_tree` does not leave the tree unchanged: it
resets bucket 0 to the empty commitment list. -/
theorem sync_skip_counterexample :
    (syncLocalTree c5Env 0 5 c5St).1 = Except.ok () ∧
    (syncLocalTree c5Env 0 5 c5St).2.commitments 0 ≠ c5St.commitments 0 ∧
    (syncLocalTree c5Env 0 5 c5St).2.commitments 0 = some [] := by
  refine ⟨rfl, by decide, rfl⟩

/-- C5 amended.  Whenever the local tree is behind the chain and more than 50
transactions exist for the pool, `sync_local_tree` skips the log scan and
resets the bucket's tree to empty (a no-op when it is already empty) instead
of continuing with the current contents, and reports success. -/
theorem sync_skip_amended (env : DepositEnv) (b onChainSize : Nat)
    (m0 : MerkleState) (sigs : List SigInfo)
    (hlt : (m0.size b).getD 0 < onChainSize)
    (hsig : env.signatures = Except.ok sigs)
    (hlen : 50 < sigs.length) :
    (syncLocalTree env b onChainSize m0).1 = Except.ok () ∧
    ((syncLocalTree env b onChainSize m0).2.size b).getD 0 = 0 ∧
    ((m0.size b).getD 0 ≠ 0 →
      (syncLocalTree env b onChainSize m0).2.commitments b = some []) := by
  have hnotreset : ¬ (onChainSize < (m0.size b).getD 0) := by omega
  by_cases hz : (m0.size b).getD 0 = 0
  · have hsync : m0.syncFromChain b [] = Except.ok m0 := by
      simp only [MerkleState.syncFromChain]
      rw [if_pos]
      simpa using hz.symm
    simp only [syncLocalTree, if_neg hnotreset, if_pos hlt, hsig, if_pos hlen, hsync]
    exact ⟨trivial, hz, fun h => absurd hz h⟩
  · have hsync : m0.syncFromChain b [] = Except.ok
        { trees := fun k => if k = b then some (MerkleTree.new TREE_DEPTH) else m0.trees k,
          commitments := fun k => if k = b then some [] else m0.commitments k } := by
      simp only [MerkleState.syncFromChain]
      rw [if_neg (by simpa using fun h => hz h.symm)]
      rfl
    simp only [syncLocalTree, if_neg hnotreset, if_pos hlt, hsig, if_pos hlen, hsync]
    refine ⟨trivial, ?_, fun _ => by simp⟩
    simp [MerkleState.size, MerkleTree.new]

/-- Witness for the amended C5 at the concrete inputs of the counterexample
state. -/
theorem sync_skip_amended_witness :
    (syncLocalTree c5Env 0 5 c5St).1 = Except.ok () ∧
    ((syncLocalTree c5Env 0 5 c5St).2.size 0).getD 0 = 0 ∧
    ((c5St.size 0).getD 0 ≠ 0 →
      (syncLocalTree c5Env 0 5 c5St).2.commitments 0 = some []) :=
  sync_skip_amended c5Env 0 5 c5St
    (List.replicate 51 { err := false, logs := none })
    (by decide) rfl (by decide)

/-! ## Claim C6: `sync_from_chain` rebuilds -/

/-- A commitment-service state with one commitment in bucket 0. -/
def c6St : MerkleState :=
  { trees := fun k => if k = 0 then some { depth := 20, leaves := [[1]] } else none,
    commitments := fun k => if k = 0 then some [[1]] else none }

/-- C6 counterexample.  `sync_from_chain` called with a list of the same
length as the current tree returns success without touching the stored
commitments, so the stored list does not equal the given list. -/
theorem sync_from_chain_counterexample :
    MerkleState.syncFromChain c6St 0 [[2]] = Except.ok c6St ∧
    c6St.commitments 0 ≠ some [[2]] :=
  ⟨rfl, by decide⟩

/-- C6 amended.  `sync_from_chain` is a no-op when the given list has exactly
the current size; otherwise it stores the given list and the tree obtained by
inserting its elements left-to-right into an empty depth-20 tree. -/
theorem sync_from_chain_amended (s : MerkleState) (b : Nat) (L : List (List Nat)) :
    (L.length = (s.size b).getD 0 → s.syncFromChain b L = Except.ok s) ∧
    (∀ t, L.length ≠ (s.size b).getD 0 → buildTree L = Except.ok t →
      ∃ s2, s.syncFromChain b L = Except.ok s2 ∧
        s2.commitments b = some L ∧ s2.trees b = some t) := by
  constructor
  · intro h
    simp only [MerkleState.syncFromChain]
    rw [if_pos h]
  · intro t hne hbuild
    refine ⟨{ trees := fun k => if k = b then some t else s.trees k,
              commitments := fun k => if k = b then some L else s.commitments k },
            ?_, by simp, by simp⟩
    simp only [MerkleState.syncFromChain]
    rw [if_neg hne, hbuild]

/-- Witness for the amended C6: rebuilding an empty bucket from a one-element
list stores that list and the one-leaf depth-20 tree. -/
theorem sync_from_chain_amended_witness :
    ∃ s2, MerkleState.syncFromChain ⟨fun _ => none, fun _ => none⟩ 0 [[3]] =
        Except.ok s2 ∧
      s2.commitments 0 = some [[3]] ∧
      s2.trees 0 = some { depth := 20, leaves := [[3]] } :=
  (sync_from_chain_amended ⟨fun _ => none, fun _ => none⟩ 0 [[3]]).2
    { depth := 20, leaves := [[3]] } (by decide) rfl

/-! ## Claim C8: withdrawal validation -/

/-- C8.  `WithdrawalRequest::validate` succeeds exactly when the amount is
positive, the fee is below the amount, and none of the four 32-byte fields is
all-zero; and when validation fails, `handle_withdrawal` returns the
`InvalidRequest` error with the original state and no submission attempted. -/
theorem withdrawal_validate_spec (feeBps : Nat)
    (hash2 : List Nat → List Nat → List Nat) (zeroLeaf : List Nat)
    (env : WithdrawEnv) (delayHours : Nat) (st : RelState)
    (r : WithdrawalRequest) :
    (r.validate = Except.ok () ↔
      (0 < r.publicInputs.amount ∧ r.publicInputs.fee < r.publicInputs.amount ∧
       allZero r.publicInputs.nullifierHash = false ∧
       allZero r.publicInputs.recipient = false ∧
       allZero r.publicInputs.relayer = false ∧
       allZero r.publicInputs.bindingHash = false)) ∧
    (∀ e, r.validate = Except.error e →
      handleWithdrawal feeBps hash2 zeroLeaf env r delayHours st =
        (Except.error (RelayerError.invalidRequest e), st, [])) := by
  constructor
  · simp only [WithdrawalRequest.validate, validate_fee]
    split_ifs with h1 h2 h3 h4 h5 h6
    all_goals simp_all
    all_goals omega
  · intro e he
    simp only [handleWithdrawal, he]

/-- A withdrawal request with a zero amount. -/
def c8Req : WithdrawalRequest :=
  { proof := { a := [], b := [], c := [] },
    publicInputs := { root := [], nullifierHash := [1], recipient := [1],
                      amount := 0, relayer := [1], fee := 0, bindingHash := [1] } }

/-- An empty relayer state. -/
def c8St : RelState :=
  { tokenStore := { cache := [], checksum := [] },
    merkle := { trees := fun _ => none, commitments := fun _ => none },
    historicalRoots := [], pending := [] }

/-- A trivial withdrawal environment. -/
def c8Env : WithdrawEnv :=
  { poolData := Except.ok [], blockhash := Except.ok (),
    submitResult := Except.ok "s", poolData2 := Except.ok [], now := 0 }

/-- Witness for C8: a zero-amount request is rejected with `InvalidRequest`
and the state is untouched. -/
theorem withdrawal_validate_spec_witness :
    handleWithdrawal 50 (fun _ _ => []) [] c8Env c8Req 0 c8St =
      (Except.error (RelayerError.invalidRequest "Amount must be non-zero"),
       c8St, []) :=
  (withdrawal_validate_spec 50 (fun _ _ => []) [] c8Env 0 c8St c8Req).2
    "Amount must be non-zero" rfl

/-! ## Claim C9: the recorded pending withdrawal -/

/-- Every bucket amount is at most `10 ^ 11` lamports. -/
theorem bucket_amount_le (b : Nat) :
    BUCKET_AMOUNTS.getD b 0 ≤ 100000000000 := by
  rcases b with _ | _ | _ | _ | _ | _ | _ | n
  all_goals simp [BUCKET_AMOUNTS, List.getD]

/-- u64 wrapping subtraction agrees with truncated subtraction in range. -/
theorem subU64_eq_sub (a b : Nat) (hba : b ≤ a) (ha : a < U64MOD) :
    subU64 a b = a - b := by
  have h64 : U64MOD = 18446744073709551616 := by norm_num [U64MOD]
  rw [h64] at ha
  simp only [subU64, h64]
  omega

/-- C9.  A successful `handle_withdrawal` for bucket `b` with delay `d` appends
exactly one pending record, with `execute_after = now + d * 3600`,
`fee = BUCKET_AMOUNTS[b] * fee_bps / 10000`, `amount = BUCKET_AMOUNTS[b] - fee`
and `executed = false`. -/
theorem pending_record_spec (feeBps : Nat)
    (hash2 : List Nat → List Nat → List Nat) (zeroLeaf : List Nat)
    (env : WithdrawEnv) (req : WithdrawalRequest) (delayHours : Nat)
    (st : RelState) (b : Nat) (pd : List Nat) (txSig : String)
    (hval : req.validate = Except.ok ())
    (hbkt : get_bucket_id req.publicInputs.amount = some b)
    (hroot : (verifyMerkleRoot hash2 zeroLeaf st req.publicInputs.root b).1 =
      Except.ok ())
    (hpool : env.poolData = Except.ok pd)
    (hbh : env.blockhash = Except.ok ())
    (hsub : env.submitResult = Except.ok txSig)
    (hfee : feeBps ≤ 10000) :
    ∃ rec, handleWithdrawal feeBps hash2 zeroLeaf env req delayHours st =
        (Except.ok { success := true, txSignature := some txSig, error := none },
         { st with pending := st.pending ++ [rec] }, ["request_withdrawal"]) ∧
      rec.executeAfter = env.now + (delayHours : Int) * 3600 ∧
      rec.fee = BUCKET_AMOUNTS.getD b 0 * feeBps / 10000 ∧
      rec.amount = BUCKET_AMOUNTS.getD b 0 - rec.fee ∧
      rec.executed = false := by
  have hb : BUCKET_AMOUNTS.getD b 0 ≤ 100000000000 := bucket_amount_le b
  have hmul : BUCKET_AMOUNTS.getD b 0 * feeBps < U64MOD := by
    have : BUCKET_AMOUNTS.getD b 0 * feeBps ≤ 100000000000 * 10000 :=
      Nat.mul_le_mul hb hfee
    calc BUCKET_AMOUNTS.getD b 0 * feeBps ≤ 100000000000 * 10000 := this
      _ < U64MOD := by norm_num [U64MOD]
  have hfeeEq : BUCKET_AMOUNTS.getD b 0 * feeBps % U64MOD =
      BUCKET_AMOUNTS.getD b 0 * feeBps := Nat.mod_eq_of_lt hmul
  have hfle : BUCKET_AMOUNTS.getD b 0 * feeBps / 10000 ≤ BUCKET_AMOUNTS.getD b 0 := by
    calc BUCKET_AMOUNTS.getD b 0 * feeBps / 10000
        ≤ BUCKET_AMOUNTS.getD b 0 * 10000 / 10000 :=
          Nat.div_le_div_right (Nat.mul_le_mul_left _ hfee)
      _ = BUCKET_AMOUNTS.getD b 0 := by omega
  refine ⟨{ pda := (b, parseTotalDeposits (env.poolData2.toOption.getD [])),
            poolPda := b, bucketId := b,
            nullifierHash := req.publicInputs.nullifierHash,
            recipient := req.publicInputs.recipient,
            executeAfter := env.now + (delayHours : Int) * 3600,
            amount := subU64 (BUCKET_AMOUNTS.getD b 0)
              (BUCKET_AMOUNTS.getD b 0 * feeBps % U64MOD / 10000),
            fee := BUCKET_AMOUNTS.getD b 0 * feeBps % U64MOD / 10000,
            executed := false }, ?_, rfl, ?_, ?_, rfl⟩
  · simp only [handleWithdrawal, hval, hbkt, hroot, hpool, hbh, hsub]
  · rw [hfeeEq]
  · rw [hfeeEq]
    exact subU64_eq_sub _ _ hfle
      (lt_of_le_of_lt hb (by norm_num [U64MOD]))

/-- A withdrawal environment for the C9 witness. -/
def c9Env : WithdrawEnv :=
  { poolData := Except.ok [], blockhash := Except.ok (),
    submitResult := Except.ok "tx", poolData2 := Except.ok [], now := 100 }

/-- A valid withdrawal request for bucket 2. -/
def c9Req : WithdrawalRequest :=
  { proof := { a := [], b := [], c := [] },
    publicInputs := { root := [], nullifierHash := [1], recipient := [1],
                      amount := 1000000000, relayer := [1], fee := 1,
                      bindingHash := [1] } }

/-- A relayer state with an empty bucket-2 tree. -/
def c9St : RelState :=
  { tokenStore := { cache := [], checksum := [] },
    merkle := { trees := fun k => if k = 2 then some (MerkleTree.new 20) else none,
                commitments := fun k => if k = 2 then some [] else none },
    historicalRoots := [], pending := [] }

/-- Witness for C9 at a concrete bucket-2 withdrawal. -/
theorem pending_record_spec_witness :
    ∃ rec, handleWithdrawal 50 (fun _ _ => []) [] c9Env c9Req 3 c9St =
        (Except.ok { success := true, txSignature := some "tx", error := none },
         { c9St with pending := c9St.pending ++ [rec] }, ["request_withdrawal"]) ∧
      rec.executeAfter = c9Env.now + (3 : Int) * 3600 ∧
      rec.fee = BUCKET_AMOUNTS.getD 2 0 * 50 / 10000 ∧
      rec.amount = BUCKET_AMOUNTS.getD 2 0 - rec.fee ∧
      rec.executed = false :=
  pending_record_spec 50 (fun _ _ => []) [] c9Env c9Req 3 c9St 2 [] "tx"
    rfl rfl rfl rfl rfl rfl (by norm_num)

/-! ## Claim C1: deposit failure after tree insert -/

/-- C1.  When a deposit passes credit verification, the token-used check and
the bucket lookup, reconciles and inserts locally, but the on-chain submission
fails, `handle_deposit` returns `TransactionFailed`, the token store still
does not contain the token hash, and the freshly inserted commitment stays in
the local tree. -/
theorem deposit_tx_failure_spec (sha : List Nat → List Nat)
    (hash2 : List Nat → List Nat → List Nat) (zeroLeaf : List Nat)
    (key : RsaKey) (env : DepositEnv) (req : DepositRequest) (st : RelState)
    (b nextIdx : Nat) (m1 : MerkleState) (li : Nat) (m2 : MerkleState)
    (root : List Nat) (msg : String)
    (hsig : verify_signature sha key req.tokenId req.signature = true)
    (htok : st.tokenStore.cache.contains (hash_token_id sha req.tokenId) = false)
    (hbkt : get_bucket_id req.amount = some b)
    (hnext : getOnChainNextIndex env = Except.ok nextIdx)
    (hsync : (if (st.merkle.size b).getD 0 ≠ nextIdx then
        syncLocalTree env b nextIdx st.merkle
      else (Except.ok (), st.merkle)) = (Except.ok (), m1))
    (hins : m1.insert b req.commitment = Except.ok (li, m2))
    (hrt : m2.root hash2 zeroLeaf b = Except.ok root)
    (hbh : env.blockhash = Except.ok ())
    (hsub : env.submitResult = Except.error msg) :
    handleDeposit sha hash2 zeroLeaf key env req st =
      (Except.error (RelayerError.transactionFailed msg),
       { st with merkle := m2 }) ∧
    (handleDeposit sha hash2 zeroLeaf key env req st).2.tokenStore.cache.contains
      (hash_token_id sha req.tokenId) = false ∧
    m2.commitments b = some ((m1.commitments b).getD [] ++ [req.commitment]) := by
  have hmain : handleDeposit sha hash2 zeroLeaf key env req st =
      (Except.error (RelayerError.transactionFailed msg),
       { st with merkle := m2 }) := by
    simp only [handleDeposit, hsig, htok, hbkt, hnext, hsync, hins, hrt, hbh, hsub,
      Bool.true_eq_false, if_false, Bool.false_eq_true, ite_false]
  have hcom : m2.commitments b =
      some ((m1.commitments b).getD [] ++ [req.commitment]) := by
    simp only [MerkleState.insert] at hins
    cases h1 : m1.trees b with
    | none =>
      rw [h1] at hins
      exact absurd hins (by simp)
    | some t =>
      rw [h1] at hins
      simp only [MerkleTree.insertLeaf] at hins
      by_cases h2 : t.leaves.length < 2 ^ t.depth
      · rw [if_pos h2] at hins
        simp only [Except.ok.injEq, Prod.mk.injEq] at hins
        rw [← hins.2]
        simp
      · rw [if_neg h2] at hins
        exact absurd hins (by simp)
  refine ⟨hmain, ?_, hcom⟩
  rw [hmain]
  exact htok

/-- The SHA-256 stand-in of the C1 witness. -/
def c1Sha : List Nat → List Nat := fun _ => [1]

/-- The deposit environment of the C1 witness: everything answers, but the
transaction submission fails. -/
def c1Env : DepositEnv :=
  { poolData := Except.ok [], signatures := Except.ok [],
    blockhash := Except.ok (), submitResult := Except.error "boom" }

/-- The deposit request of the C1 witness: a bucket-0 credit whose signature
verifies under the toy RSA key `(33, 3, 7)` and the constant hash. -/
def c1Req : DepositRequest :=
  { tokenId := [], signature := [1], amount := 100000000,
    commitment := [7], encryptedNote := none }

/-- The initial state of the C1 witness: empty token store, empty bucket-0
tree. -/
def c1St : RelState :=
  { tokenStore := { cache := [], checksum := [] },
    merkle := { trees := fun k => if k = 0 then some (MerkleTree.new 20) else none,
                commitments := fun k => if k = 0 then some [] else none },
    historicalRoots := [], pending := [] }

/-- The commitment-service state after the C1 witness insert. -/
def c1M2 : MerkleState :=
  { trees := fun k => if k = 0 then some { depth := 20, leaves := [[7]] }
      else c1St.merkle.trees k,
    commitments := fun k => if k = 0 then some [[7]]
      else c1St.merkle.commitments k }

/-- Witness for C1: the concrete failed deposit leaves the token store empty
and the commitment in the tree. -/
theorem deposit_tx_failure_spec_witness :
    handleDeposit c1Sha (fun _ _ => []) [] { n := 33, e := 3, d := 7 }
        c1Env c1Req c1St =
      (Except.error (RelayerError.transactionFailed "boom"),
       { c1St with merkle := c1M2 }) ∧
    (handleDeposit c1Sha (fun _ _ => []) [] { n := 33, e := 3, d := 7 }
        c1Env c1Req c1St).2.tokenStore.cache.contains
      (hash_token_id c1Sha c1Req.tokenId) = false ∧
    c1M2.commitments 0 =
      some ((c1St.merkle.commitments 0).getD [] ++ [c1Req.commitment]) :=
  deposit_tx_failure_spec c1Sha (fun _ _ => []) [] { n := 33, e := 3, d := 7 }
    c1Env c1Req c1St 0 0 c1St.merkle 0 c1M2 [] "boom"
    (by simp only [verify_signature, modpow_eq]; decide)
    (by decide) (by decide) rfl rfl rfl rfl rfl rfl

/-! ## Claim C7: purchase charge and payment check -/

/-- Any amount recognised by `get_bucket_id` is at most `10 ^ 11`. -/
theorem get_bucket_id_le (amount b : Nat) (h : get_bucket_id amount = some b) :
    amount ≤ 100000000000 := by
  simp only [get_bucket_id, BUCKET_AMOUNTS, List.findIdx?_cons, List.findIdx?_nil]
    at h
  split_ifs at h with h1 h2 h3 h4 h5 h6 h7
  all_goals simp_all
  all_goals omega

/-- For bucket amounts and u16 fee rates, `calculate_total_with_fee` computes
`amount + amount * feeBps / 10000` without u64 truncation. -/
theorem expected_charge_eq (amount feeBps b : Nat)
    (hb : get_bucket_id amount = some b) (hfee : feeBps < 65536) :
    calculate_total_with_fee amount feeBps = amount + amount * feeBps / 10000 := by
  have ha := get_bucket_id_le amount b hb
  have h1 : amount * feeBps / 10000 < U64MOD := by
    have : amount * feeBps ≤ 100000000000 * 65536 :=
      Nat.mul_le_mul ha (Nat.le_of_lt hfee)
    have h2 : amount * feeBps / 10000 ≤ amount * feeBps := Nat.div_le_self _ _
    calc amount * feeBps / 10000 ≤ amount * feeBps := h2
      _ ≤ 100000000000 * 65536 := this
      _ < U64MOD := by norm_num [U64MOD]
  have h2 : amount + amount * feeBps / 10000 < U64MOD := by
    have : amount * feeBps ≤ 100000000000 * 65536 :=
      Nat.mul_le_mul ha (Nat.le_of_lt hfee)
    have h3 : amount * feeBps / 10000 ≤ amount * feeBps := Nat.div_le_self _ _
    have h4 : U64MOD = 18446744073709551616 := by norm_num [U64MOD]
    rw [h4]
    omega
  rw [calculate_total_with_fee, Nat.mod_eq_of_lt h1, Nat.mod_eq_of_lt h2]

theorem listStartsWith_append (p l r : List Char)
    (h : listStartsWith p l = true) : listStartsWith p (l ++ r) = true := by
  induction p generalizing l with
  | nil => rfl
  | cons a as ih =>
    cases l with
    | nil => simp [listStartsWith] at h
    | cons b bs =>
      simp only [listStartsWith, List.cons_append, Bool.and_eq_true] at h ⊢
      exact ⟨h.1, ih bs h.2⟩

theorem containsSubstr_of_startsWithList (s pat : String)
    (h : listStartsWith pat.toList s.toList = true) :
    containsSubstr s pat = true := by
  unfold containsSubstr findSubstr
  cases hs : s.toList with
  | nil =>
    cases hp : pat.toList with
    | nil => simp [findSubAux]
    | cons c cs =>
      rw [hp, hs] at h
      simp [listStartsWith] at h
  | cons c cs =>
    rw [hs] at h
    simp only [String.toList] at h
    simp [findSubAux, h]

/-- C7.  For a bucket amount and u16 fee rate the expected charge is
`amount + ⌊amount * feeBps / 10000⌋`; the `/sign` handler returns a signature
only when the relayer's balance increase covers that charge, and when the
increase falls short it fails with an error containing `Insufficient payment`
and returns no signature. -/
theorem sign_endpoint_payment_spec (key : RsaKey)
    (feeBps relayerPk payerPk : Nat) (m : TxMeta) (keys : List Nat)
    (relayerIdx payerIdx : Nat) (hex : String) (amount b : Nat)
    (hb : get_bucket_id amount = some b)
    (hfee : feeBps < 65536)
    (hmerr : m.err = false)
    (hkr : keys.findIdx? (fun k => k == relayerPk) = some relayerIdx)
    (hkp : keys.findIdx? (fun k => k == payerPk) = some payerIdx) :
    calculate_total_with_fee amount feeBps = amount + amount * feeBps / 10000 ∧
    (∀ resp, sign_blinded_endpoint key feeBps relayerPk payerPk
        (some { meta := some m, accountKeys := some keys }) hex amount =
          Except.ok resp →
      amount + amount * feeBps / 10000 ≤
        m.postBalances.getD relayerIdx 0 - m.preBalances.getD relayerIdx 0 ∧
      resp.signature.isSome = true) ∧
    (m.postBalances.getD relayerIdx 0 - m.preBalances.getD relayerIdx 0 <
        amount + amount * feeBps / 10000 →
      ∃ msg, sign_blinded_endpoint key feeBps relayerPk payerPk
          (some { meta := some m, accountKeys := some keys }) hex amount =
        Except.error (RelayerError.invalidRequest msg) ∧
        containsSubstr msg "Insufficient payment" = true) := by
  have hcalc := expected_charge_eq amount feeBps b hb hfee
  have hred : sign_blinded_endpoint key feeBps relayerPk payerPk
      (some { meta := some m, accountKeys := some keys }) hex amount =
      (if calculate_total_with_fee amount feeBps ≤
          m.postBalances.getD relayerIdx 0 - m.preBalances.getD relayerIdx 0 then
        match hexDecodeList hex.toList with
        | none => Except.error RelayerError.invalidBlindedToken
        | some bytes =>
          match sign_blinded key.n key.d bytes with
          | Except.error e => Except.error e
          | Except.ok sig =>
            Except.ok { success := true, signature := some (hexEncode sig),
                        error := none }
      else
        Except.error (RelayerError.invalidRequest
          ("Insufficient payment: received "
            ++ toString (m.postBalances.getD relayerIdx 0
              - m.preBalances.getD relayerIdx 0)
            ++ " lamports, expected "
            ++ toString (calculate_total_with_fee amount feeBps)))) := by
    simp only [sign_blinded_endpoint, hb, hmerr, hkr, hkp, Bool.false_eq_true,
      if_false, ite_false]
  refine ⟨hcalc, ?_, ?_⟩
  · intro resp hok
    rw [hred] at hok
    by_cases hge : calculate_total_with_fee amount feeBps ≤
        m.postBalances.getD relayerIdx 0 - m.preBalances.getD relayerIdx 0
    · refine ⟨by rwa [hcalc] at hge, ?_⟩
      rw [if_pos hge] at hok
      split at hok
      · exact absurd hok (by simp)
      · split at hok
        · exact absurd hok (by simp)
        · simp only [Except.ok.injEq] at hok
          rw [← hok]
          rfl
    · rw [if_neg hge] at hok
      exact absurd hok (by simp)
  · intro hlt
    refine ⟨"Insufficient payment: received "
        ++ toString (m.postBalances.getD relayerIdx 0
          - m.preBalances.getD relayerIdx 0)
        ++ " lamports, expected "
        ++ toString (calculate_total_with_fee amount feeBps), ?_, ?_⟩
    · rw [hred, if_neg (by rw [hcalc]; omega)]
    · apply containsSubstr_of_startsWithList
      have hdata : ("Insufficient payment: received "
          ++ toString (m.postBalances.getD relayerIdx 0
            - m.preBalances.getD relayerIdx 0)
          ++ " lamports, expected "
          ++ toString (calculate_total_with_fee amount feeBps)).toList =
          "Insufficient payment: received ".toList
            ++ ((toString (m.postBalances.getD relayerIdx 0
              - m.preBalances.getD relayerIdx 0)).toList
              ++ (" lamports, expected ".toList
                ++ (toString (calculate_total_with_fee amount feeBps)).toList)) := by
        show (_ : String).data = _
        rw [String.data_append, String.data_append, String.data_append,
          List.append_assoc, List.append_assoc]
        rfl
      rw [hdata]
      exact listStartsWith_append _ _ _ (by decide)

/-- Witness for C7: a concrete bucket-0 purchase paid 5 lamports instead of
100500000 is rejected with an `Insufficient payment` error. -/
theorem sign_endpoint_payment_spec_witness :
    ∃ msg, sign_blinded_endpoint { n := 33, e := 3, d := 7 } 50 1 2
        (some { meta := some { err := false, preBalances := [0, 0],
                               postBalances := [5, 0] },
                accountKeys := some [1, 2] }) "ab" 100000000 =
      Except.error (RelayerError.invalidRequest msg) ∧
      containsSubstr msg "Insufficient payment" = true :=
  (sign_endpoint_payment_spec { n := 33, e := 3, d := 7 } 50 1 2
      { err := false, preBalances := [0, 0], postBalances := [5, 0] }
      [1, 2] 0 1 "ab" 100000000 0 rfl (by norm_num) rfl rfl rfl).2.2
    (by decide)

/-! ## Claim C10: the historical-root cache is never populated -/

theorem getD_replicate_list (n b : Nat) :
    (List.replicate n ([] : List (List Nat))).getD b [] = [] := by
  induction n generalizing b with
  | zero => simp
  | succ k ih =>
    cases b with
    | zero => rfl
    | succ b2 =>
      rw [List.replicate_succ, List.getD_cons_succ]
      exact ih b2

theorem handleDeposit_hist (sha : List Nat → List Nat)
    (hash2 : List Nat → List Nat → List Nat) (zeroLeaf : List Nat)
    (key : RsaKey) (env : DepositEnv) (req : DepositRequest) (st : RelState) :
    ((handleDeposit sha hash2 zeroLeaf key env req st).2).historicalRoots =
      st.historicalRoots := by
  simp only [handleDeposit]
  repeat' split
  all_goals rfl

theorem handleWithdrawal_hist (feeBps : Nat)
    (hash2 : List Nat → List Nat → List Nat) (zeroLeaf : List Nat)
    (env : WithdrawEnv) (req : WithdrawalRequest) (d : Nat) (st : RelState) :
    ((handleWithdrawal feeBps hash2 zeroLeaf env req d st).2.1).historicalRoots =
      st.historicalRoots := by
  simp only [handleWithdrawal]
  repeat' split
  all_goals rfl

theorem executeWithdrawal_hist (env : ExecEnv) (nh : List Nat) (st : RelState) :
    ((executeWithdrawal env nh st).2).historicalRoots = st.historicalRoots := by
  simp only [executeWithdrawal]
  repeat' split
  all_goals rfl

theorem pollAndExecute_hist (env : PollEnv) (st : RelState) :
    (pollAndExecute env st).historicalRoots = st.historicalRoots := by
  have step : ∀ (l : List (Nat × PendingRecord)) (acc : RelState),
      (l.foldl (fun acc ir =>
        match executeByRecord (env.recEnv ir.1) ir.2 with
        | Except.ok _ =>
          { acc with pending := markFirst (fun r2 => r2.pda == ir.2.pda) acc.pending }
        | Except.error _ => acc) acc).historicalRoots = acc.historicalRoots := by
    intro l
    induction l with
    | nil => intro acc; rfl
    | cons hd tl ih =>
      intro acc
      rw [List.foldl_cons, ih]
      split
      · rfl
      · rfl
  exact step _ _

/-- C10.  In the composed relayer no reachable state ever records a historical
root: from boot, after any sequence of deposit, withdrawal, execute and poll
operations the per-bucket historical-root cache is still the empty maps.
Consequently the root-freshness check can match only the current root, and for
any other root it merely logs a warning (the boolean) and still succeeds. -/
theorem no_historical_roots_spec (sha : List Nat → List Nat)
    (hash2 : List Nat → List Nat → List Nat) (zeroLeaf : List Nat)
    (key : RsaKey) (feeBps : Nat) :
    (∀ (ts : TokenStore) (m : MerkleState) (ops : List RelayerOp),
      (ops.foldl (fun st op => stepOp sha hash2 zeroLeaf key feeBps op st)
        (initRelState ts m)).historicalRoots =
        List.replicate BUCKET_AMOUNTS.length []) ∧
    (∀ (st : RelState) (b : Nat) (root current : List Nat),
      st.historicalRoots = List.replicate BUCKET_AMOUNTS.length [] →
      st.merkle.root hash2 zeroLeaf b = Except.ok current →
      (verifyMerkleRoot hash2 zeroLeaf st root b).1 = Except.ok () ∧
      ((verifyMerkleRoot hash2 zeroLeaf st root b).2 = true ↔ root ≠ current)) := by
  constructor
  · intro ts m ops
    have inv : ∀ (ops2 : List RelayerOp) (st : RelState),
        (ops2.foldl (fun st op => stepOp sha hash2 zeroLeaf key feeBps op st)
          st).historicalRoots = st.historicalRoots := by
      intro ops2
      induction ops2 with
      | nil => intro st; rfl
      | cons op rest ih =>
        intro st
        rw [List.foldl_cons, ih]
        cases op with
        | deposit env req => exact handleDeposit_hist sha hash2 zeroLeaf key env req st
        | withdraw env req d =>
          exact handleWithdrawal_hist feeBps hash2 zeroLeaf env req d st
        | execute env nh => exact executeWithdrawal_hist env nh st
        | poll env => exact pollAndExecute_hist env st
    rw [inv]
    rfl
  · intro st b root current hemp hcur
    simp only [verifyMerkleRoot, hcur]
    by_cases hrc : root = current
    · rw [if_pos hrc]
      exact ⟨rfl, by simp [hrc]⟩
    · rw [if_neg hrc]
      have hcont : (st.historicalRoots.getD b []).contains root = false := by
        rw [hemp, getD_replicate_list]
        rfl
      simp only [hcont, Bool.false_eq_true, if_false, ite_false]
      exact ⟨trivial, by simp [hrc]⟩

/-- A relayer state with empty historical-root maps and an empty bucket-0
tree. -/
def c10St : RelState :=
  { tokenStore := { cache := [], checksum := [] },
    merkle := { trees := fun k => if k = 0 then some (MerkleTree.new 20) else none,
                commitments := fun k => if k = 0 then some [] else none },
    historicalRoots := List.replicate BUCKET_AMOUNTS.length [], pending := [] }

/-- Witness for C10: with the empty cache, a non-current root is let through
with only a warning. -/
theorem no_historical_roots_spec_witness :
    (verifyMerkleRoot (fun _ _ => []) [] c10St [5] 0).1 = Except.ok () ∧
    ((verifyMerkleRoot (fun _ _ => []) [] c10St [5] 0).2 = true ↔
      ([5] : List Nat) ≠ []) :=
  (no_historical_roots_spec (fun _ => []) (fun _ _ => []) []
      { n := 33, e := 3, d := 7 } 50).2 c10St 0 [5] [] rfl rfl

end TraceZero
